import Mathlib

/-!
# Formal model of the `nxhttp` HTTP client library

A shallow embedding, in Lean 4, of the parts of the `nxhttp` Go repository
needed to settle the specification claims:

* `httpheader.ParseRetryAfter` (Retry-After header parsing),
* `nxdial.RestrictedDialer.IsAllowed` and `RestrictedDialer.DialContext`
  (destination-restricting dialer),
* `discardReadCloser` and `Response.Close` (response body lifecycle),
* `GetBody` and the body-source openers (replayable request bodies),
* the retry loop of `Client.Do` together with `doRequest`.

Go `time.Duration` values are `int64` nanoseconds; they are modelled as `Int`
with explicit 64-bit wraparound (`wrap64`) where the Go code performs 64-bit
arithmetic that can overflow, and explicit saturation (`satDur`) where the Go
standard library saturates (`time.Time.Sub`).
-/

namespace Nxhttp

/-- One second, in nanoseconds (`time.Second` in Go). -/
def second : Int := 1000000000

/-- Interpret an unbounded integer as a Go `int64`: reduce modulo `2^64` into
the range `[-2^63, 2^63)`.  Go integer arithmetic wraps around. -/
def wrap64 (z : Int) : Int :=
  let m := z % (2 ^ 64 : Int)
  if m < 2 ^ 63 then m else m - 2 ^ 64

/-- Saturate an unbounded integer into the `int64` range.  `time.Time.Sub`
in Go returns the maximum (minimum) representable duration on overflow. -/
def satDur (z : Int) : Int :=
  if z > 2 ^ 63 - 1 then 2 ^ 63 - 1
  else if z < -(2 ^ 63) then -(2 ^ 63)
  else z

/-- Model of Go `strconv.ParseInt(s, 10, 64)`, restricted to what the caller
observes: `some i` when parsing succeeds with value `i`, `none` when
`ParseInt` returns a non-nil error (syntax error or out of `int64` range;
`ParseRetryAfter` only ever checks `err == nil`).  Base 10 accepts an
optional leading sign followed by one or more ASCII digits. -/
def goParseInt64 (s : String) : Option Int :=
  match s.data with
  | [] => none
  | c :: cs =>
    let (sign, digits) :=
      if c = '-' then ((-1 : Int), cs)
      else if c = '+' then ((1 : Int), cs)
      else ((1 : Int), c :: cs)
    if digits.isEmpty then none
    else if digits.all (fun d => d.isDigit) then
      let v : Int := sign * ((digits.foldl (fun a d => a * 10 + (d.toNat - 48)) 0 : Nat) : Int)
      if -(2 ^ 63) ≤ v ∧ v ≤ 2 ^ 63 - 1 then some v else none
    else none

/--
Model of `httpheader.ParseRetryAfter` (`src/unnamed/part_002`, lines 360–396).

`parseTime` abstracts the external `http.ParseTime` (net/http standard
library, not part of this repository): `some t` is a successfully parsed
HTTP date at absolute time `t` (nanoseconds), `none` a parse failure.
`now` is the current time in nanoseconds (`time.Until t = t - now`, with the
standard library's saturating subtraction).

The Go code, in order: empty string returns `(0, nil)`; an integer parse
success with a negative value errors, a non-negative value `i` returns
`time.Duration(i) * time.Second` (64-bit wraparound multiplication); a failed
integer parse falls through to date parsing; date-parse failure errors;
`time.Until` of the parsed date errors when negative, otherwise it is
returned.
-/
def ParseRetryAfter (parseTime : String → Option Int) (now : Int) (v : String) :
    Except String Int :=
  if v = "" then .ok 0
  else
    match goParseInt64 v with
    | some i =>
      if i < 0 then .error "nxhttp: got negative Retry-After value in response"
      else .ok (wrap64 (i * second))
    | none =>
      match parseTime v with
      | none => .error "nxhttp: failed to parse Retry-After header from response"
      | some t =>
        let til := satDur (t - now)
        if til < 0 then .error "nxhttp: Retry-After date is in the past"
        else .ok til

theorem wrap64_eq_self {z : Int} (h0 : 0 ≤ z) (h1 : z ≤ 2 ^ 63 - 1) : wrap64 z = z := by
  simp only [wrap64]
  omega

theorem satDur_eq_self {z : Int} (h0 : -(2 ^ 63) ≤ z) (h1 : z ≤ 2 ^ 63 - 1) :
    satDur z = z := by
  unfold satDur
  split
  · omega
  · split
    · omega
    · rfl

theorem satDur_neg {z : Int} (h : z < 0) : satDur z < 0 := by
  unfold satDur
  split
  · omega
  · split
    · omega
    · exact h

theorem goParseInt64_empty : goParseInt64 "" = none := rfl

/-- **C4** (corrected).  As stated, the claim fails: `"10000000000"` is a
non-negative integer string (it parses to `10^10`), yet `ParseRetryAfter`
returns, with no error, the negative duration `-8446744073709551616` ns —
the 64-bit wraparound of `10^10 * 10^9` ns — rather than `10^10` seconds. -/
theorem c4_overflow_counterexample :
    goParseInt64 "10000000000" = some 10000000000 ∧
    (0 : Int) ≤ 10000000000 ∧
    ParseRetryAfter (fun _ => none) 0 "10000000000" = .ok (-8446744073709551616) ∧
    (-8446744073709551616 : Int) ≠ 10000000000 * second :=
  ⟨rfl, by decide, rfl, by decide⟩

/-- **C4** (amended).  `ParseRetryAfter` behaves as follows: the empty string
returns a zero duration with no error; a non-negative integer string whose
value in seconds fits in an `int64` of nanoseconds returns that many seconds
with no error (larger values overflow 64-bit arithmetic, see the
counterexample); a negative integer string returns an error; a value parsing
as an HTTP date strictly in the future (by at most the maximum representable
duration) returns the duration until that date; an HTTP date in the past
returns an error; a value that is neither an integer nor a parsable date
returns an error. -/
theorem c4_retry_after_parsing (pt : String → Option Int) (now : Int) :
    (ParseRetryAfter pt now "" = .ok 0) ∧
    (∀ v i, goParseInt64 v = some i → 0 ≤ i → i * second ≤ 2 ^ 63 - 1 →
      ParseRetryAfter pt now v = .ok (i * second)) ∧
    (∀ v i, goParseInt64 v = some i → i < 0 →
      ParseRetryAfter pt now v =
        .error "nxhttp: got negative Retry-After value in response") ∧
    (∀ v t, v ≠ "" → goParseInt64 v = none → pt v = some t → now < t →
      t - now ≤ 2 ^ 63 - 1 → ParseRetryAfter pt now v = .ok (t - now)) ∧
    (∀ v t, v ≠ "" → goParseInt64 v = none → pt v = some t → t < now →
      ParseRetryAfter pt now v = .error "nxhttp: Retry-After date is in the past") ∧
    (∀ v, v ≠ "" → goParseInt64 v = none → pt v = none →
      ParseRetryAfter pt now v =
        .error "nxhttp: failed to parse Retry-After header from response") := by
  have hne : ∀ v i, goParseInt64 v = some i → v ≠ "" := by
    intro v i h hv
    rw [hv, goParseInt64_empty] at h
    exact Option.noConfusion h
  refine ⟨rfl, ?_, ?_, ?_, ?_, ?_⟩
  · intro v i hp hnn hbound
    have hsec : (0 : Int) ≤ i * second := by
      have : (0 : Int) ≤ second := by decide
      exact mul_nonneg hnn this
    simp only [ParseRetryAfter, if_neg (hne v i hp), hp, if_neg (not_lt.mpr hnn)]
    rw [wrap64_eq_self hsec hbound]
  · intro v i hp hneg
    simp only [ParseRetryAfter, if_neg (hne v i hp), hp, if_pos hneg]
  · intro v t hv hp hpt hfut hbound
    have h0 : -(2 ^ 63 : Int) ≤ t - now := by omega
    simp only [ParseRetryAfter, if_neg hv, hp, hpt, satDur_eq_self h0 hbound,
      if_neg (not_lt.mpr (by omega : (0 : Int) ≤ t - now))]
  · intro v t hv hp hpt hpast
    have hlt : satDur (t - now) < 0 := satDur_neg (by omega)
    simp only [ParseRetryAfter, if_neg hv, hp, hpt, if_pos hlt]
  · intro v hv hp hpt
    simp only [ParseRetryAfter, if_neg hv, hp, hpt]

/-- Witness for `c4_retry_after_parsing`: the spec's own examples, obtained by
applying the theorem at concrete inputs. -/
theorem c4_retry_after_parsing_witness :
    ParseRetryAfter (fun _ => none) 0 "120" = .ok (120 * second) ∧
    ParseRetryAfter (fun _ => none) 0 "-5" =
      .error "nxhttp: got negative Retry-After value in response" ∧
    ParseRetryAfter (fun s => if s = "date" then some (-5000000000) else none) 0 "date" =
      .error "nxhttp: Retry-After date is in the past" :=
  ⟨(c4_retry_after_parsing (fun _ => none) 0).2.1 "120" 120 rfl (by decide) (by decide),
   (c4_retry_after_parsing (fun _ => none) 0).2.2.1 "-5" (-5) (by decide) (by decide),
   (c4_retry_after_parsing (fun s => if s = "date" then some (-5000000000) else none)
      0).2.2.2.2.1 "date" (-5000000000) (by decide) rfl (by simp) (by decide)⟩

/-! ## The restricted dialer (`nxdial`, `src/unnamed/part_003`)

`netip.Addr` values are either IPv4 (a 32-bit big-endian integer) or IPv6
(a 128-bit big-endian integer); the `netip` classification predicates used by
`RestrictedDialer.IsAllowed` (an external standard-library dependency of the
code) are embedded byte-for-byte from their Go definitions. -/

/-- A `netip.Addr`: IPv4 or IPv6, as a big-endian integer value. -/
inductive IPAddr where
  | v4 (n : Nat)
  | v6 (n : Nat)
deriving DecidableEq, Repr

/-- Well-formedness: the integer fits the address width.  Real `netip.Addr`
values satisfy this by construction. -/
def IPAddr.wf : IPAddr → Prop
  | .v4 n => n < 2 ^ 32
  | .v6 n => n < 2 ^ 128

instance (a : IPAddr) : Decidable a.wf := by
  cases a <;> simp only [IPAddr.wf] <;> infer_instance

/-- Byte `i` (0-based, from the most significant end) of a 32-bit value;
`Addr.v4(i)` in Go's `netip`. -/
def byte4 (n i : Nat) : Nat := n / 2 ^ (8 * (3 - i)) % 256

/-- Byte `i` (0-based, from the most significant end) of a 128-bit value;
`Addr.v6(i)` in Go's `netip`. -/
def byte16 (n i : Nat) : Nat := n / 2 ^ (8 * (15 - i)) % 256

/-- A `netip.Prefix`: an address (with its family) plus a bit count. -/
structure Cidr where
  isV6 : Bool
  addr : Nat
  bits : Nat
deriving DecidableEq, Repr

/-- `netip.Prefix.Contains`: false across families, otherwise compare the
leading `bits` bits of the addresses. -/
def Cidr.Contains (p : Cidr) : IPAddr → Bool
  | .v4 n => !p.isV6 && decide (n / 2 ^ (32 - p.bits) = p.addr / 2 ^ (32 - p.bits))
  | .v6 n => p.isV6 && decide (n / 2 ^ (128 - p.bits) = p.addr / 2 ^ (128 - p.bits))

/-- `netip.Addr.IsPrivate`: RFC 1918 ranges for IPv4, `fc00::/7` for IPv6. -/
def addrIsPrivate : IPAddr → Bool
  | .v4 n =>
    (byte4 n 0 == 10) ||
    (byte4 n 0 == 172 && (byte4 n 1 &&& 0xf0) == 16) ||
    (byte4 n 0 == 192 && byte4 n 1 == 168)
  | .v6 n => (byte16 n 0 &&& 0xfe) == 0xfc

/-- `netip.Addr.IsLoopback`: `127.0.0.0/8` for IPv4, `::1` for IPv6. -/
def addrIsLoopback : IPAddr → Bool
  | .v4 n => byte4 n 0 == 127
  | .v6 n => n == 1

/-- `netip.Addr.IsLinkLocalUnicast`: `169.254.0.0/16` for IPv4,
`fe80::/10` for IPv6. -/
def addrIsLinkLocalUnicast : IPAddr → Bool
  | .v4 n => byte4 n 0 == 169 && byte4 n 1 == 254
  | .v6 n => byte16 n 0 == 0xfe && (byte16 n 1 &&& 0xc0) == 0x80

/-- `netip.Addr.IsLinkLocalMulticast`: `224.0.0.0/24` for IPv4,
`ff02::/16` for IPv6. -/
def addrIsLinkLocalMulticast : IPAddr → Bool
  | .v4 n => byte4 n 0 == 224 && byte4 n 1 == 0 && byte4 n 2 == 0
  | .v6 n => byte16 n 0 == 0xff && (byte16 n 1 &&& 0x0f) == 0x02

/-- `netip.Addr.IsInterfaceLocalMulticast`: IPv6 `ff01::/16` only. -/
def addrIsInterfaceLocalMulticast : IPAddr → Bool
  | .v4 _ => false
  | .v6 n => byte16 n 0 == 0xff && (byte16 n 1 &&& 0x0f) == 0x01

/-- The policy configuration of `nxdial.RestrictedDialer`. -/
structure RestrictedDialer where
  AllowedPrefixes : List Cidr
  BlockedPrefixes : List Cidr
  IsPrivate : Bool
  IsLoopback : Bool
  IsLinkLocalUnicast : Bool
  IsLinkLocalMulticast : Bool
  IsInterfaceLocalMulticast : Bool
deriving Repr

/-- `RestrictedDialer.IsAllowed` (`src/unnamed/part_003`, lines 161–200):
allowed prefixes first (allow), then blocked prefixes (deny), then the five
boolean toggles (deny), then default-allow. -/
def RestrictedDialer.IsAllowed (r : RestrictedDialer) (addr : IPAddr) : Bool :=
  if r.AllowedPrefixes.any (·.Contains addr) then true
  else if r.BlockedPrefixes.any (·.Contains addr) then false
  else if r.IsPrivate && addrIsPrivate addr then false
  else if r.IsLoopback && addrIsLoopback addr then false
  else if r.IsLinkLocalUnicast && addrIsLinkLocalUnicast addr then false
  else if r.IsLinkLocalMulticast && addrIsLinkLocalMulticast addr then false
  else if r.IsInterfaceLocalMulticast && addrIsInterfaceLocalMulticast addr then false
  else true

/-- The disjunction of the five boolean-toggle checks of `IsAllowed`. -/
def toggleDeny (r : RestrictedDialer) (addr : IPAddr) : Bool :=
  (r.IsPrivate && addrIsPrivate addr) ||
  (r.IsLoopback && addrIsLoopback addr) ||
  (r.IsLinkLocalUnicast && addrIsLinkLocalUnicast addr) ||
  (r.IsLinkLocalMulticast && addrIsLinkLocalMulticast addr) ||
  (r.IsInterfaceLocalMulticast && addrIsInterfaceLocalMulticast addr)

/-- `blocked = [0.0.0.0/0, ::/0]`, `allowed = [1.1.1.1/32]`, all toggles off
(`16843009 = 0x01010101` is `1.1.1.1`). -/
def allowOneDialer : RestrictedDialer :=
  ⟨[⟨false, 16843009, 32⟩], [⟨false, 0, 0⟩, ⟨true, 0, 0⟩], false, false, false, false, false⟩

/-- A dialer with only `IsPrivate` enabled and empty prefix lists. -/
def privateOnlyDialer : RestrictedDialer :=
  ⟨[], [], true, false, false, false, false⟩

/-- **C5** (confirmed).  `IsAllowed` evaluates allowed prefixes, then blocked
prefixes, then the boolean toggles, then default-allow: an address inside an
allowed prefix is permitted regardless of everything else; otherwise an
address in a blocked prefix is denied; otherwise an address matching an
enabled toggle is denied; otherwise allowed.  Concretely,
`blocked = [0.0.0.0/0, ::/0]` with `allowed = [1.1.1.1/32]` permits exactly
`1.1.1.1`; a dialer with only `IsPrivate` enabled blocks `10.0.0.1`,
`172.16.0.1`, `192.168.0.1` and `fc00::1` but allows `127.0.0.1`, `8.8.8.8`
and `2001:4860:4860::8888`. -/
theorem c5_dialer_allow_deny :
    (∀ (r : RestrictedDialer) (addr : IPAddr),
      (r.AllowedPrefixes.any (·.Contains addr) = true → r.IsAllowed addr = true) ∧
      (r.AllowedPrefixes.any (·.Contains addr) = false →
        r.BlockedPrefixes.any (·.Contains addr) = true → r.IsAllowed addr = false) ∧
      (r.AllowedPrefixes.any (·.Contains addr) = false →
        r.BlockedPrefixes.any (·.Contains addr) = false →
        toggleDeny r addr = true → r.IsAllowed addr = false) ∧
      (r.AllowedPrefixes.any (·.Contains addr) = false →
        r.BlockedPrefixes.any (·.Contains addr) = false →
        toggleDeny r addr = false → r.IsAllowed addr = true)) ∧
    (∀ addr : IPAddr, addr.wf →
      allowOneDialer.IsAllowed addr = decide (addr = .v4 16843009)) ∧
    (privateOnlyDialer.IsAllowed (.v4 167772161) = false ∧
     privateOnlyDialer.IsAllowed (.v4 2886729729) = false ∧
     privateOnlyDialer.IsAllowed (.v4 3232235521) = false ∧
     privateOnlyDialer.IsAllowed (.v6 334965454937798799971759379190646833153) = false ∧
     privateOnlyDialer.IsAllowed (.v4 2130706433) = true ∧
     privateOnlyDialer.IsAllowed (.v4 134744072) = true ∧
     privateOnlyDialer.IsAllowed (.v6 42541956123769884636017138956568135816) = true) := by
  refine ⟨?_, ?_, ?_⟩
  · intro r addr
    refine ⟨?_, ?_, ?_, ?_⟩
    · intro ha
      simp [RestrictedDialer.IsAllowed, ha]
    · intro ha hb
      simp [RestrictedDialer.IsAllowed, ha, hb]
    · intro ha hb ht
      simp only [RestrictedDialer.IsAllowed, ha, hb, if_false, Bool.false_eq_true, if_neg]
      split_ifs <;> simp_all [toggleDeny]
    · intro ha hb ht
      simp only [RestrictedDialer.IsAllowed, ha, hb, if_false, Bool.false_eq_true, if_neg]
      split_ifs <;> simp_all [toggleDeny]
  · intro addr hwf
    cases addr with
    | v4 n =>
      simp only [IPAddr.wf] at hwf
      by_cases h : n = 16843009
      · subst h; decide
      · simp [allowOneDialer, RestrictedDialer.IsAllowed, Cidr.Contains, h]
        omega
    | v6 m =>
      simp only [IPAddr.wf] at hwf
      simp [allowOneDialer, RestrictedDialer.IsAllowed, Cidr.Contains]
      omega
  · exact ⟨by decide, by decide, by decide, by decide, by decide, by decide, by decide⟩

/-- Witness for `c5_dialer_allow_deny`: the blocked-everything dialer with the
single `1.1.1.1/32` allow entry denies `127.0.0.1` and permits `1.1.1.1`,
obtained by applying the theorem at those concrete addresses. -/
theorem c5_dialer_allow_deny_witness :
    allowOneDialer.IsAllowed (.v4 2130706433) = decide (IPAddr.v4 2130706433 = IPAddr.v4 16843009) ∧
    allowOneDialer.IsAllowed (.v4 16843009) = decide (IPAddr.v4 16843009 = IPAddr.v4 16843009) :=
  ⟨c5_dialer_allow_deny.2.1 (.v4 2130706433) (by decide),
   c5_dialer_allow_deny.2.1 (.v4 16843009) (by decide)⟩

/-- An established network connection (`net.Conn`).  `remote` is the result
of `netip.ParseAddrPort(c.RemoteAddr().String())` restricted to the address
part: `some a` when the remote address parses to `a`, `none` when parsing
fails (unexpected address family). -/
structure Conn where
  id : Nat
  remote : Option IPAddr
deriving DecidableEq, Repr

/-- The error outcomes of `RestrictedDialer.DialContext`. -/
inductive DialErr where
  | dialFailed (tag : Nat)
  | parseFailed
  | internalResolution
deriving DecidableEq, Repr

/-- `RestrictedDialer.DialContext` (`src/unnamed/part_003`, lines 136–155),
as a function of the underlying dialer's outcome `dial` (`.error t` models a
failed `net.Dialer.DialContext`, `.ok c` an established connection `c`):
on dial failure, return `(nil, err)`; otherwise parse the remote address —
on parse failure return the connection together with a parse error; if the
address is not allowed, return the connection together with
`ErrInternalResolution`; otherwise return the connection with no error. -/
def RestrictedDialer.DialContext (r : RestrictedDialer) (dial : Except Nat Conn) :
    Option Conn × Option DialErr :=
  match dial with
  | .error t => (none, some (.dialFailed t))
  | .ok c =>
    match c.remote with
    | none => (some c, some .parseFailed)
    | some a =>
      if r.IsAllowed a then (some c, none)
      else (some c, some .internalResolution)

/-- **C6** (confirmed).  Whenever the underlying dial succeeds with
connection `c`, `DialContext` returns `c` itself (never `none`): with the
distinguished `ErrInternalResolution` when the resolved remote address is
disallowed, with a parse error when the remote address cannot be parsed, and
with no error otherwise.  The established connection is never silently
discarded, and the single underlying dial outcome is consumed exactly once —
no retry or substitute destination exists in the function. -/
theorem c6_dial_context_returns_conn (r : RestrictedDialer) (c : Conn) :
    ((r.DialContext (.ok c)).1 = some c) ∧
    (c.remote = none → r.DialContext (.ok c) = (some c, some .parseFailed)) ∧
    (∀ a, c.remote = some a → r.IsAllowed a = false →
      r.DialContext (.ok c) = (some c, some .internalResolution)) ∧
    (∀ a, c.remote = some a → r.IsAllowed a = true →
      r.DialContext (.ok c) = (some c, none)) := by
  refine ⟨?_, ?_, ?_, ?_⟩
  · simp only [RestrictedDialer.DialContext]
    cases h : c.remote with
    | none => rfl
    | some a => by_cases ha : r.IsAllowed a <;> simp [ha]
  · intro h
    simp [RestrictedDialer.DialContext, h]
  · intro a h ha
    simp [RestrictedDialer.DialContext, h, ha]
  · intro a h ha
    simp [RestrictedDialer.DialContext, h, ha]

/-- Witness for `c6_dial_context_returns_conn`: a connection whose remote
resolves to the loopback address `127.0.0.1` is returned together with
`ErrInternalResolution` by the default-restrictions dialer. -/
theorem c6_dial_context_returns_conn_witness :
    RestrictedDialer.DialContext ⟨[], [], true, true, true, true, true⟩
      (.ok ⟨0, some (.v4 2130706433)⟩) =
      (some ⟨0, some (.v4 2130706433)⟩, some .internalResolution) :=
  (c6_dial_context_returns_conn ⟨[], [], true, true, true, true, true⟩
    ⟨0, some (.v4 2130706433)⟩).2.2.1 (.v4 2130706433) rfl (by decide)

/-! ## Response body lifecycle (`src/response.go`) -/

/-- Error values as observed by the client code.  `requestError` models the
`RequestError` wrapper applied by `doRequest`; the leaf constructors record
whether `isTimeout` reports true for the error (`timeoutErr` models errors
comparable to `context.DeadlineExceeded` or exposing a true `Timeout()`
method, `plainErr` everything else). -/
inductive GoErr where
  | requestError (inner : GoErr)
  | timeoutErr (tag : Nat)
  | plainErr (tag : Nat)
deriving DecidableEq, Repr

/-- `isTimeout` (`src/unnamed/part_001`): `errors.Is`/`errors.As` unwrap
through `RequestError.Unwrap`, so the wrapper preserves timeout-ness. -/
def isTimeout : GoErr → Bool
  | .requestError e => isTimeout e
  | .timeoutErr _ => true
  | .plainErr _ => false

/-- An observable operation performed on the underlying wrapped
`io.ReadCloser`. -/
inductive RWEvent where
  | readCall (bytes : Nat)
  | closeCall
deriving DecidableEq, Repr

/-- The state of a `discardReadCloser`-wrapped response body: the bytes the
underlying reader still holds, whether the underlying reader has already
returned `io.EOF` through the wrapper's `Read`, and the error the underlying
`Close` will return. -/
structure discardReadCloser where
  remaining : List Nat
  eof : Bool
  closeErr : Option GoErr
deriving DecidableEq, Repr

/-- `discardReadCloser.Read`: forward to the underlying reader (which yields
its next at-most-`p` buffered bytes, or `io.EOF` when exhausted) and record
in `eof` whether `io.EOF` was returned.  The boolean in the result is the
`io.EOF` signal. -/
def discardReadCloser.Read (s : discardReadCloser) (p : Nat) :
    (List Nat × Bool) × discardReadCloser :=
  if s.remaining = [] then (([], true), { s with eof := true })
  else ((s.remaining.take p, false), { s with remaining := s.remaining.drop p })

/-- `discardReadCloser.Close` (`src/response.go`, lines 72–78), as the list
of operations performed on the underlying reader: if `io.EOF` was never
observed, `discard` copies through `io.LimitReader(r, 16*1024)` — reading
and throwing away at most 16384 of the remaining bytes — before the
underlying `Close`; otherwise the underlying `Close` is called immediately
with no read. -/
def discardReadCloser.CloseEvents (s : discardReadCloser) : List RWEvent :=
  if s.eof then [.closeCall]
  else [.readCall (min 16384 s.remaining.length), .closeCall]

/-- **C7** (confirmed).  Closing a wrapped body before end-of-data was
observed reads and discards at most 16 KiB of the remaining bytes and then
invokes the underlying `Close`; if end-of-data was already observed by a
prior `Read`, `Close` performs no read at all on the underlying stream.
Reading an exhausted stream returns `io.EOF` and records it, and the `eof`
flag is only ever set by observing end-of-data. -/
theorem c7_drain_on_close (s : discardReadCloser) :
    (s.eof = false →
      s.CloseEvents = [.readCall (min 16384 s.remaining.length), .closeCall] ∧
      min 16384 s.remaining.length ≤ 16384) ∧
    (s.eof = true → s.CloseEvents = [.closeCall]) ∧
    (∀ p, s.remaining = [] → (s.Read p).1.2 = true ∧ ((s.Read p).2).eof = true) ∧
    (∀ p, ((s.Read p).2).eof = true → s.eof = true ∨ s.remaining = []) := by
  refine ⟨?_, ?_, ?_, ?_⟩
  · intro h
    exact ⟨by simp [discardReadCloser.CloseEvents, h], Nat.min_le_left _ _⟩
  · intro h
    simp [discardReadCloser.CloseEvents, h]
  · intro p h
    simp [discardReadCloser.Read, h]
  · intro p h
    by_cases hr : s.remaining = []
    · exact Or.inr hr
    · left
      simpa [discardReadCloser.Read, hr] using h

/-- Witness for `c7_drain_on_close`: a body with 100000 unread bytes and no
observed end-of-data drains exactly 16384 bytes and then closes; a body that
already saw end-of-data closes with no read. -/
theorem c7_drain_on_close_witness :
    discardReadCloser.CloseEvents ⟨List.replicate 100000 0, false, none⟩ =
      [.readCall (min 16384 (List.replicate 100000 (0 : Nat)).length), .closeCall] ∧
    discardReadCloser.CloseEvents ⟨[], true, none⟩ = [.closeCall] :=
  ⟨(c7_drain_on_close ⟨List.replicate 100000 0, false, none⟩).1 rfl |>.1,
   (c7_drain_on_close ⟨[], true, none⟩).2.1 rfl⟩

/-- `Response.Close` (`src/response.go`, lines 26–36): if the body is nil,
do nothing and return nil; otherwise close the (wrapped) body, returning its
close error, with the body's drain-and-close operations as side effects. -/
def ResponseClose (body : Option discardReadCloser) : Option GoErr × List RWEvent :=
  match body with
  | none => (none, [])
  | some s => (s.closeErr, s.CloseEvents)

/-- **C10** (confirmed).  Closing a `Response` whose body is nil returns nil
and performs no operation on any underlying stream. -/
theorem c10_close_nil_body : ResponseClose none = (none, []) := rfl

/-! ## Request body sources (`src/body.go`) -/

/-- The body values `GetBody` recognizes that are backed by seekable
content: `[]byte` (wrapped in a fresh `bytes.Reader`), `string` (fresh
`strings.Reader`), `url.Values` (its `Encode()` output in a fresh
`strings.Reader`), a seekable file (`SeekableFile` / `*os.File`), and a
generic `io.ReadSeeker`.  The caller-supplied `ReadOpener` case of `GetBody`
is excluded: it runs an arbitrary caller function. -/
inductive BodyVal where
  | bytes (data : List Nat)
  | text (data : List Nat)
  | form (data : List Nat)
  | file (content : List Nat)
  | readSeeker (content : List Nat)
deriving DecidableEq, Repr

/-- The logical content behind a body value (for `url.Values`, the encoded
form; `Encode` is deterministic and evaluated once at construction). -/
def BodyVal.content : BodyVal → List Nat
  | .bytes d => d
  | .text d => d
  | .form d => d
  | .file d => d
  | .readSeeker d => d

/-- The seek position of the underlying shared reader.  The content itself
is fixed: `bytes.Reader` and `strings.Reader` are read-only, and the file
model assumes no concurrent writer. -/
structure SeekState where
  pos : Nat
deriving DecidableEq, Repr

/-- `Seek(0, io.SeekStart)`. -/
def seekToStart (_ : SeekState) : SeekState := ⟨0⟩

/-- Fully read a reader over `content` starting at state `s`.  `limit`
models an `io.LimitReader` cap (`none` = unlimited). -/
def readAllFrom (content : List Nat) (s : SeekState) (limit : Option Nat) :
    List Nat × SeekState :=
  match limit with
  | none => (content.drop s.pos, ⟨content.length⟩)
  | some n => ((content.drop s.pos).take n, ⟨min (s.pos + n) content.length⟩)

/-- One call of the `BodyFunc` built by `GetBody` (`src/body.go`, lines
59–112) followed by a full read of the returned stream.  Every case first
seeks the shared reader to offset 0 (`bodyFuncFromReadSeeker` /
`bodyFuncFromFile`); the file case additionally caps the read with
`io.LimitReader` at the size observed by `Stat` at construction time, which
absent concurrent writers is the content length. -/
def GetBodyOpenRead (v : BodyVal) (s : SeekState) : List Nat × SeekState :=
  match v with
  | .file content => readAllFrom content (seekToStart s) (some content.length)
  | .readSeeker content => readAllFrom content (seekToStart s) none
  | .bytes d => readAllFrom d (seekToStart s) none
  | .text d => readAllFrom d (seekToStart s) none
  | .form d => readAllFrom d (seekToStart s) none

/-- `n` successive open-and-fully-read calls, threading the shared reader
state between them. -/
def openReads (v : BodyVal) : Nat → SeekState → List (List Nat)
  | 0, _ => []
  | n + 1, s => (GetBodyOpenRead v s).1 :: openReads v n (GetBodyOpenRead v s).2

/-- **C8** (confirmed).  For every body source built by `GetBody` from raw
bytes, text, URL-encoded form values, a seekable file, or a seekable reader,
opening and fully reading the stream `n` times — from any starting seek
position — yields the same logical content, byte-identical, every time. -/
theorem c8_body_replay (v : BodyVal) (n : Nat) (s : SeekState) :
    openReads v n s = List.replicate n v.content := by
  induction n generalizing s with
  | zero => rfl
  | succ k ih =>
    have h : (GetBodyOpenRead v s).1 = v.content := by
      cases v <;> simp [GetBodyOpenRead, readAllFrom, seekToStart, BodyVal.content]
    simp [openReads, h, ih, List.replicate_succ]

/-! ## The retry loop of `Client.Do` (`src/unnamed/part_004`, lines 120–220)

The loop is modelled as a function of the per-attempt behaviour of the world
(transport and body source).  The external `nxretry` collaborator is modelled
at its interface (spec §6): the iterator yields up to `maxAttempts`
attempts, sleeping between consecutive attempts for the override delay when
`Override` was called during the previous attempt, and for the backoff's
delay otherwise.  The model assumes the request context is never cancelled
and `maxAttempts > 0` (`0` means unlimited in the source). -/

/-- What the world does on one attempt: `openErr e` — `req.GetBody()` fails
with `e` inside `doRequest` (possible only when the request has a custom
body); `netErr e` — the HTTP call itself fails with `e`; `response s ra` —
a response arrives with status code `s` and `Retry-After` header value `ra`
(`""` when the header is absent, matching `httpheader.Get`). -/
inductive Outcome where
  | openErr (e : GoErr)
  | netErr (e : GoErr)
  | response (status : Nat) (retryAfter : String)

/-- The configuration `Client.Do` reads: `newOptions` fields plus the hooks
installed by `setDefaults`/options.  `backoff k` abstracts the external
`nxretry.Backoff`: the delay slept before attempt `k + 1` when no override
was issued.  `parseTime`/`now` instantiate the `ParseRetryAfter` model. -/
structure DoCfg where
  maxAttempts : Nat
  backoff : Nat → Int
  minRetryAfter : Int
  maxRetryAfter : Int
  onError : GoErr → Option GoErr
  onErrorResponse : Option (Nat → String → Option GoErr)
  hasBody : Bool
  parseTime : String → Option Int
  now : Int

/-- Observable events of one `Client.Do` call.  `closeResponse a` would be
the draining close of attempt `a`'s response body by the loop. -/
inductive Ev where
  | bodyOpen (attempt : Nat)
  | netCall (attempt : Nat)
  | gotResponse (attempt : Nat) (status : Nat)
  | closeResponse (attempt : Nat)
  | sleep (beforeAttempt : Nat) (d : Int)
deriving DecidableEq, Repr

/-- Lines 196–207 of `Client.Do`: override the retrier's next delay with the
parsed `Retry-After` duration `d` only when `d` exceeds `minRetryAfter`,
truncated to `maxRetryAfter` when that is configured (positive) and
exceeded. -/
def retryAfterOverride (minRA maxRA d : Int) : Option Int :=
  if d > minRA then
    some (if maxRA > 0 ∧ d > maxRA then maxRA else d)
  else none

/-- How one attempt ends: `stop` leaves the loop (`break` or exhaustion is
handled by the loop itself), `cont` reaches a `continue`, carrying the
current response/error pair and the delay override, if any, issued via
`rty.Override`. -/
inductive StepRes where
  | stop (resp : Option (Nat × Nat)) (err : Option GoErr)
  | cont (resp : Option (Nat × Nat)) (err : Option GoErr) (override : Option Int)
deriving DecidableEq, Repr

/-- Lines 132–148 of `Client.Do`: a non-nil `doRequest` error is handed to
`onError`; if the transformed error is nil or a timeout, `continue`,
otherwise `break`. -/
def errStep (cfg : DoCfg) (e : GoErr) : StepRes :=
  match cfg.onError e with
  | none => .cont none none none
  | some e1 => if isTimeout e1 then .cont none (some e1) none else .stop none (some e1)

/-- Lines 169–214 of `Client.Do`, after the 2xx check and the
`onErrorResponse` hook.  The `switch` on the status code (lines 169–179) is,
as written, a no-op: each listed case has an empty body and the `break`
under `default:` exits the switch, not the retry loop, so control continues
to the `Retry-After` handling and the trailing `continue` for every status
code.  A malformed `Retry-After` header `continue`s without an override
(lines 182–191). -/
def afterStatus (cfg : DoCfg) (i status : Nat) (ra : String) : StepRes :=
  match ParseRetryAfter cfg.parseTime cfg.now ra with
  | .error _ => .cont (some (i, status)) none none
  | .ok d => .cont (some (i, status)) none
      (retryAfterOverride cfg.minRetryAfter cfg.maxRetryAfter d)

/-- The operations attempt `i` performs on the world, per `doRequest`
(lines 223–258): open the body when one is set (`req.GetBody()`), then the
HTTP call, then receipt of a response.  A failed body open performs no
network call. -/
def attemptEvents (cfg : DoCfg) (i : Nat) : Outcome → List Ev
  | .openErr _ => [.bodyOpen i]
  | .netErr _ => (if cfg.hasBody then [.bodyOpen i] else []) ++ [.netCall i]
  | .response status _ =>
    (if cfg.hasBody then [.bodyOpen i] else []) ++ [.netCall i, .gotResponse i status]

/-- The control-flow outcome of attempt `i` (lines 131–214): `doRequest`
errors (open failures and network failures alike are wrapped in
`RequestError` by `doRequest`) go through `errStep`; a 2xx response `break`s
with the response; otherwise the `onErrorResponse` hook may `break` with its
error, else control falls through the no-op switch into `afterStatus`. -/
def attemptStep (cfg : DoCfg) (i : Nat) : Outcome → StepRes
  | .openErr e => errStep cfg (.requestError e)
  | .netErr e => errStep cfg (.requestError e)
  | .response status ra =>
    if 200 ≤ status ∧ status ≤ 299 then .stop (some (i, status)) none
    else
      match cfg.onErrorResponse with
      | some hook =>
        match hook status ra with
        | some e => .stop (some (i, status)) (some e)
        | none => afterStatus cfg i status ra
      | none => afterStatus cfg i status ra

/-- The final state of a `Client.Do` call: the returned `(r, doErr)` pair —
`resp` holds `(attempt, status)` of the returned response — together with
the trace of world-visible events. -/
structure DoResult where
  resp : Option (Nat × Nat)
  err : Option GoErr
  trace : List Ev
deriving Repr

/-- The `for range rty.Next(ctx)` loop (lines 129–215).  `fuel` is the
number of attempts the retrier will still yield; each iteration overwrites
`(r, doErr)` with `doRequest`'s result, and on `continue` with fuel left the
retrier sleeps (override delay if issued, else backoff) before the next
attempt.  On `stop` or exhaustion the current `(r, doErr)` is returned. -/
def doLoop (cfg : DoCfg) (outs : Nat → Outcome) :
    Nat → Nat → Option (Nat × Nat) → Option GoErr → List Ev → DoResult
  | 0, _, r, e, tr => ⟨r, e, tr⟩
  | fuel + 1, i, _, _, tr =>
    let evs := attemptEvents cfg i (outs i)
    match attemptStep cfg i (outs i) with
    | .stop r1 e1 => ⟨r1, e1, tr ++ evs⟩
    | .cont r1 e1 ov =>
      if fuel = 0 then ⟨r1, e1, tr ++ evs⟩
      else doLoop cfg outs fuel (i + 1) r1 e1
        (tr ++ evs ++ [.sleep (i + 1) (ov.getD (cfg.backoff i))])

/-- `Client.Do` (lines 120–220), starting from `r = nil`, `doErr = nil`. -/
def ClientDo (cfg : DoCfg) (outs : Nat → Outcome) : DoResult :=
  doLoop cfg outs cfg.maxAttempts 0 none none []

/-- The defaults of `newOptions` (`src/option.go`, lines 63–69) together
with `setDefaults`'s identity `onError`, no `onErrorResponse` hook, no
custom request body, and an abstract backoff. -/
def defaultCfg (backoff : Nat → Int) : DoCfg where
  maxAttempts := 3
  backoff := backoff
  minRetryAfter := 3 * second
  maxRetryAfter := 30 * second
  onError := fun e => some e
  onErrorResponse := none
  hasBody := false
  parseTime := fun _ => none
  now := 0

theorem closeResponse_not_mem_attemptEvents (cfg : DoCfg) (i a : Nat) (out : Outcome) :
    Ev.closeResponse a ∉ attemptEvents cfg i out := by
  cases out <;> by_cases hb : cfg.hasBody <;> simp [attemptEvents, hb]

theorem closeResponse_not_mem_doLoop (cfg : DoCfg) (outs : Nat → Outcome) (a : Nat) :
    ∀ fuel i r e tr, Ev.closeResponse a ∉ tr →
      Ev.closeResponse a ∉ (doLoop cfg outs fuel i r e tr).trace := by
  intro fuel
  induction fuel with
  | zero => intro i r e tr h; exact h
  | succ f ih =>
    intro i r e tr h
    have hev := closeResponse_not_mem_attemptEvents cfg i a (outs i)
    cases hstep : attemptStep cfg i (outs i) with
    | stop r1 e1 =>
      simp only [doLoop, hstep]
      simp [h, hev]
    | cont r1 e1 ov =>
      simp only [doLoop, hstep]
      by_cases hf : f = 0
      · simp [hf, h, hev]
      · simp only [hf, if_false]
        exact ih (i + 1) r1 e1 _ (by simp [h, hev])

theorem netCall_not_mem_attemptEvents (cfg : DoCfg) {i a : Nat} (h : a ≠ i)
    (out : Outcome) : Ev.netCall a ∉ attemptEvents cfg i out := by
  cases out <;> by_cases hb : cfg.hasBody <;> simp [attemptEvents, hb, h]

theorem netCall_lt_not_mem_doLoop (cfg : DoCfg) (outs : Nat → Outcome) (a : Nat) :
    ∀ fuel i r e tr, a < i → Ev.netCall a ∉ tr →
      Ev.netCall a ∉ (doLoop cfg outs fuel i r e tr).trace := by
  intro fuel
  induction fuel with
  | zero => intro i r e tr _ h; exact h
  | succ f ih =>
    intro i r e tr hlt h
    have hev := netCall_not_mem_attemptEvents cfg (by omega : a ≠ i) (outs i)
    cases hstep : attemptStep cfg i (outs i) with
    | stop r1 e1 =>
      simp only [doLoop, hstep]
      simp [h, hev]
    | cont r1 e1 ov =>
      simp only [doLoop, hstep]
      by_cases hf : f = 0
      · simp [hf, h, hev]
      · simp only [hf, if_false]
        exact ih (i + 1) r1 e1 _ (by omega) (by simp [h, hev])

/-- **C1** (code bug).  A client with the default three attempts receiving
HTTP 404 — a status not in 200–299 and not one of 429/500/502/503/504 — on
every attempt does *not* stop at the first response: the `break` under the
status switch's `default:` case exits only the switch, so the loop performs
all three attempts (network calls 0, 1 and 2 appear in the trace, with a
backoff sleep before each retry) and returns the third 404 response.  The
claim's "no further attempt is made" is violated by the code. -/
theorem c1_undeclared_status_still_retries (backoff : Nat → Int) :
    ClientDo (defaultCfg backoff) (fun _ => .response 404 "") =
      ⟨some (2, 404), none,
       [.netCall 0, .gotResponse 0 404, .sleep 1 (backoff 0),
        .netCall 1, .gotResponse 1 404, .sleep 2 (backoff 1),
        .netCall 2, .gotResponse 2 404]⟩ := rfl

/-- **C2** (code bug).  No execution of the `Client.Do` loop ever closes a
response body: the trace of every run contains no `closeResponse` event.
Concretely, with the default configuration and a 503 response on attempt 0
followed by a 200 on attempt 1, the loop starts attempt 1 (and returns
attempt 1's response, discarding attempt 0's) while attempt 0's response
body was never drained or closed — the sequencing the claim requires does
not exist in the code. -/
theorem c2_discarded_response_never_closed :
    (∀ (cfg : DoCfg) (outs : Nat → Outcome) (a : Nat),
      Ev.closeResponse a ∉ (ClientDo cfg outs).trace) ∧
    (∀ backoff : Nat → Int,
      ClientDo (defaultCfg backoff)
          (fun i => if i = 0 then .response 503 "" else .response 200 "") =
        ⟨some (1, 200), none,
         [.netCall 0, .gotResponse 0 503, .sleep 1 (backoff 0),
          .netCall 1, .gotResponse 1 200]⟩) := by
  constructor
  · intro cfg outs a
    exact closeResponse_not_mem_doLoop cfg outs a cfg.maxAttempts 0 none none [] (by simp)
  · intro backoff
    rfl

/-- **C3** (confirmed).  When the loop reaches the `Retry-After` handling
with a parsed duration `d`: if `d` exceeds `minRetryAfter` the override is
`d`, truncated to `maxRetryAfter` when that is positive and exceeded; if `d`
does not exceed the minimum, no override is issued and the backoff delay is
used.  Concretely, with the default 3s minimum and 30s maximum: a 429
response with `Retry-After: 5` makes the next delay 5s; `Retry-After: 1`
leaves the backoff delay; a malformed `Retry-After: zzz` is ignored (the
attempt still retries on the backoff delay and the call still succeeds);
`Retry-After: 45` is truncated to the 30s maximum. -/
theorem c3_retry_after_precedence (backoff : Nat → Int) :
    (∀ minRA maxRA d : Int, minRA < d → 0 < maxRA → d ≤ maxRA →
      retryAfterOverride minRA maxRA d = some d) ∧
    (∀ minRA maxRA d : Int, minRA < d → 0 < maxRA → maxRA < d →
      retryAfterOverride minRA maxRA d = some maxRA) ∧
    (∀ minRA maxRA d : Int, d ≤ minRA → retryAfterOverride minRA maxRA d = none) ∧
    ClientDo (defaultCfg backoff)
        (fun i => if i = 0 then .response 429 "5" else .response 200 "") =
      ⟨some (1, 200), none,
       [.netCall 0, .gotResponse 0 429, .sleep 1 (5 * second),
        .netCall 1, .gotResponse 1 200]⟩ ∧
    ClientDo (defaultCfg backoff)
        (fun i => if i = 0 then .response 429 "1" else .response 200 "") =
      ⟨some (1, 200), none,
       [.netCall 0, .gotResponse 0 429, .sleep 1 (backoff 0),
        .netCall 1, .gotResponse 1 200]⟩ ∧
    ClientDo (defaultCfg backoff)
        (fun i => if i = 0 then .response 429 "zzz" else .response 200 "") =
      ⟨some (1, 200), none,
       [.netCall 0, .gotResponse 0 429, .sleep 1 (backoff 0),
        .netCall 1, .gotResponse 1 200]⟩ ∧
    ClientDo (defaultCfg backoff)
        (fun i => if i = 0 then .response 429 "45" else .response 200 "") =
      ⟨some (1, 200), none,
       [.netCall 0, .gotResponse 0 429, .sleep 1 (30 * second),
        .netCall 1, .gotResponse 1 200]⟩ := by
  refine ⟨?_, ?_, ?_, rfl, rfl, rfl, rfl⟩
  · intro minRA maxRA d h1 h2 h3
    have hgt : d > minRA := h1
    have hnc : ¬(maxRA > 0 ∧ d > maxRA) := by omega
    simp [retryAfterOverride, hgt, hnc]
  · intro minRA maxRA d h1 h2 h3
    have hgt : d > minRA := h1
    have ha : maxRA > 0 := h2
    have hb : d > maxRA := h3
    simp [retryAfterOverride, hgt, ha, hb]
  · intro minRA maxRA d h1
    have hn : ¬d > minRA := by omega
    simp [retryAfterOverride, hn]

/-- Witness for `c3_retry_after_precedence`: the override function at the
default bounds and the spec's concrete durations, by applying the theorem. -/
theorem c3_retry_after_precedence_witness :
    retryAfterOverride (3 * second) (30 * second) (5 * second) = some (5 * second) ∧
    retryAfterOverride (3 * second) (30 * second) (45 * second) = some (30 * second) ∧
    retryAfterOverride (3 * second) (30 * second) (1 * second) = none :=
  ⟨(c3_retry_after_precedence (fun _ => second)).1 _ _ _ (by decide) (by decide) (by decide),
   (c3_retry_after_precedence (fun _ => second)).2.1 _ _ _ (by decide) (by decide) (by decide),
   (c3_retry_after_precedence (fun _ => second)).2.2.1 _ _ _ (by decide)⟩

/-- **C9** (corrected): counterexample.  A body-open failure whose error is
timeout-like (e.g. a seek error comparable to `context.DeadlineExceeded`)
*is* retried: with the default configuration, attempt 0's `GetBody` failure
is followed by a sleep and a full attempt 1 — contradicting the claim's "no
retry occurs for that error".  (The claim's "no network call is performed
for that attempt" does hold: there is no `netCall 0`.) -/
theorem c9_timeout_open_error_retried :
    ClientDo { defaultCfg (fun _ => second) with hasBody := true }
        (fun i => if i = 0 then .openErr (.timeoutErr 0) else .response 200 "") =
      ⟨some (1, 200), none,
       [.bodyOpen 0, .sleep 1 second, .bodyOpen 1, .netCall 1, .gotResponse 1 200]⟩ := rfl

/-- **C9** (amended).  When obtaining a fresh body stream fails on the first
attempt, no network call is performed for that attempt; the error is wrapped
in `RequestError` and classified by the same path as transport errors, so it
is permanent — surfaced to the caller with the trace ending at the body open,
no network activity and no retry — provided the error hook keeps it non-nil
and the error is not timeout-like.  (A hook returning nil or a timeout-like
error leads to a retry, as the counterexample shows.) -/
theorem c9_open_error_no_network (cfg : DoCfg) (outs : Nat → Outcome) (e : GoErr)
    (h0 : outs 0 = .openErr e) (hm : 0 < cfg.maxAttempts) :
    Ev.netCall 0 ∉ (ClientDo cfg outs).trace ∧
    (∀ e1, cfg.onError (.requestError e) = some e1 → isTimeout e1 = false →
      ClientDo cfg outs = ⟨none, some e1, [.bodyOpen 0]⟩) := by
  obtain ⟨m, hm2⟩ : ∃ m, cfg.maxAttempts = m + 1 := ⟨cfg.maxAttempts - 1, by omega⟩
  have hev : attemptEvents cfg 0 (outs 0) = [.bodyOpen 0] := by rw [h0]; rfl
  have hstep : attemptStep cfg 0 (outs 0) = errStep cfg (.requestError e) := by
    rw [h0]
    rfl
  constructor
  · unfold ClientDo
    rw [hm2]
    cases herr : errStep cfg (.requestError e) with
    | stop r1 e1 =>
      simp only [doLoop, hstep, herr, hev]
      simp
    | cont r1 e1 ov =>
      simp only [doLoop, hstep, herr, hev]
      by_cases hf : m = 0
      · simp [hf]
      · simp only [hf, if_false]
        exact netCall_lt_not_mem_doLoop cfg outs 0 m 1 r1 e1 _ (by omega) (by simp)
  · intro e1 honerr htimeout
    have herr : errStep cfg (.requestError e) = .stop none (some e1) := by
      simp [errStep, honerr, htimeout]
    unfold ClientDo
    rw [hm2]
    simp only [doLoop, hstep, herr, hev]
    simp

/-- Witness for `c9_open_error_no_network`: a plain (non-timeout) seek error
on the first attempt with the default configuration is permanent — the call
returns the wrapped error after only the body open. -/
theorem c9_open_error_no_network_witness :
    Ev.netCall 0 ∉ (ClientDo { defaultCfg (fun _ => second) with hasBody := true }
      (fun _ => .openErr (.plainErr 7))).trace ∧
    ClientDo { defaultCfg (fun _ => second) with hasBody := true }
      (fun _ => .openErr (.plainErr 7)) =
      ⟨none, some (.requestError (.plainErr 7)), [.bodyOpen 0]⟩ := by
  have h := c9_open_error_no_network
    { defaultCfg (fun _ => second) with hasBody := true }
    (fun _ => .openErr (.plainErr 7)) (.plainErr 7) rfl (by decide)
  exact ⟨h.1, h.2 (.requestError (.plainErr 7)) rfl rfl⟩

end Nxhttp
